import Mathlib

/-!
Verification development for the Shepherd's Guide 5e session aid
(`src/app.py`): a shallow embedding of its character-derivation,
summon-eligibility and summoned-creature lifecycle core, with theorems
settling the spec's claims about it.
-/

namespace App

/-! ### Models of the Python string/number primitives used by `app.py` -/

/-- Numeric value of a list of ASCII digit characters, most significant first
(how Python reads a digit run). -/
def digitsVal (l : List Char) : Nat :=
  l.foldl (fun a c => 10 * a + (c.toNat - 48)) 0

/-- Strip whitespace from both ends of a character list, as Python's
`str.strip()` / the implicit stripping done by `float()` and `int()`. -/
def stripWs (l : List Char) : List Char :=
  ((l.dropWhile Char.isWhitespace).reverse.dropWhile Char.isWhitespace).reverse

/-- Unsigned decimal literal to a rational: digit run with an optional single
decimal point (`"2"`, `"0.25"`, `"1."`, `".5"`); `none` on anything else. -/
def parseUnsignedRat (l : List Char) : Option Rat :=
  match l.splitOn '.' with
  | [ip] =>
    if ip ≠ [] ∧ ip.all Char.isDigit then some (digitsVal ip) else none
  | [ip, fp] =>
    if (ip ≠ [] ∨ fp ≠ []) ∧ ip.all Char.isDigit ∧ fp.all Char.isDigit then
      some ((digitsVal ip : Rat) + (digitsVal fp : Rat) / (10 ^ fp.length : Nat))
    else none
  | _ => none

/-- Model of Python `float(s)` on the plain decimal forms that occur in this
program's data (optional surrounding whitespace, optional sign, decimal
literal); exponent/infinity/nan spellings are outside the modelled domain.
`none` models `float` raising `ValueError`. -/
def pyFloat (s : String) : Option Rat :=
  match stripWs s.toList with
  | '-' :: rest => (parseUnsignedRat rest).map (fun q => -q)
  | '+' :: rest => parseUnsignedRat rest
  | l => parseUnsignedRat l

/-- Model of Python `int(s)` for string input: optional surrounding
whitespace, optional sign, nonempty digit run; `none` models `ValueError`. -/
def pyInt (s : String) : Option Int :=
  match stripWs s.toList with
  | '-' :: rest =>
    if rest ≠ [] ∧ rest.all Char.isDigit then some (-(digitsVal rest : Int)) else none
  | '+' :: rest =>
    if rest ≠ [] ∧ rest.all Char.isDigit then some (digitsVal rest : Int) else none
  | l =>
    if l ≠ [] ∧ l.all Char.isDigit then some (digitsVal l : Int) else none

/-- Model of Python `int(x)` on a float: truncation toward zero. -/
def pyTruncRat (q : Rat) : Int :=
  if 0 ≤ q then q.floor else q.ceil

/-- Split a character list at every character satisfying `p`, keeping empty
pieces — the splitting behaviour shared by Python's `str.split(sep)`. -/
def charSplitP (p : Char → Bool) : List Char → List (List Char)
  | [] => [[]]
  | c :: rest =>
    let r := charSplitP p rest
    if p c then [] :: r
    else
      match r with
      | [] => [[c]]
      | h :: t => (c :: h) :: t

/-- Model of Python `s.split(sep)` for a one-character separator (the only
form `app.py` uses: `'/'` and `'d'`). -/
def pySplitChar (sep : Char) (s : String) : List String :=
  (charSplitP (fun c => c = sep) s.toList).map List.asString

/-- Model of Python `str.split()` with no argument: whitespace-separated
tokens, empty tokens discarded. -/
def pySplitWs (s : String) : List String :=
  ((charSplitP Char.isWhitespace s.toList).map List.asString).filter
    (fun t => t ≠ "")

/-- Rejoin split pieces with the separator (inverse of `charSplitP` on a
one-character separator); used to speak about "the text after the first
separator". -/
def joinSep (sep : Char) : List (List Char) → List Char
  | [] => []
  | [x] => x
  | x :: y :: rest => x ++ sep :: joinSep sep (y :: rest)

/-- Model of Python `str.lower()` on the ASCII strings of this domain. -/
def pyLower (s : String) : String :=
  (s.toList.map Char.toLower).asString

/-- Decidable substring test on character lists, modelling Python's
`needle in hay` for strings. -/
def containsSub (pat : List Char) : List Char → Bool
  | [] => pat.isEmpty
  | c :: rest => pat.isPrefixOf (c :: rest) || containsSub pat rest

/-- Model of Python `pat in hay` for strings. -/
def strIn (pat hay : String) : Bool :=
  containsSub pat.toList hay.toList

/-! ### Rule tables (`app.py` lines 33-94) -/

/-- Model of the `CLASS_SPELLCASTING` dict lookup with the `'none'` default used at its
call site. -/
def CLASS_SPELLCASTING (name : String) : String :=
  if name = "Barbarian" then "none"
  else if name = "Bard" then "full"
  else if name = "Cleric" then "full"
  else if name = "Druid" then "full"
  else if name = "Fighter" then "none"
  else if name = "Monk" then "none"
  else if name = "Paladin" then "half"
  else if name = "Ranger" then "half"
  else if name = "Rogue" then "none"
  else if name = "Sorcerer" then "full"
  else if name = "Warlock" then "pact"
  else if name = "Wizard" then "full"
  else "none"

/-- Model of the `SPELLCASTER_MULTIPLIERS` dict lookup with the `0` default used at its
call site (so `"pact"`, absent from the dict, maps to `0`). -/
def SPELLCASTER_MULTIPLIERS (s : String) : Rat :=
  if s = "full" then 1
  else if s = "half" then 1 / 2
  else if s = "third" then 34 / 100
  else if s = "none" then 0
  else 0

/-- Model of the `MULTICLASS_SPELL_SLOTS` dict lookup; the default row `[0]*9` models the
`.get(..., [0]*9)` at the call site. -/
def MULTICLASS_SPELL_SLOTS (lvl : Int) : List Nat :=
  if lvl = 1 then [2, 0, 0, 0, 0, 0, 0, 0, 0]
  else if lvl = 2 then [3, 0, 0, 0, 0, 0, 0, 0, 0]
  else if lvl = 3 then [4, 2, 0, 0, 0, 0, 0, 0, 0]
  else if lvl = 4 then [4, 3, 0, 0, 0, 0, 0, 0, 0]
  else if lvl = 5 then [4, 3, 2, 0, 0, 0, 0, 0, 0]
  else if lvl = 6 then [4, 3, 3, 0, 0, 0, 0, 0, 0]
  else if lvl = 7 then [4, 3, 3, 1, 0, 0, 0, 0, 0]
  else if lvl = 8 then [4, 3, 3, 2, 0, 0, 0, 0, 0]
  else if lvl = 9 then [4, 3, 3, 3, 1, 0, 0, 0, 0]
  else if lvl = 10 then [4, 3, 3, 3, 2, 0, 0, 0, 0]
  else if lvl = 11 then [4, 3, 3, 3, 2, 1, 0, 0, 0]
  else if lvl = 12 then [4, 3, 3, 3, 2, 1, 0, 0, 0]
  else if lvl = 13 then [4, 3, 3, 3, 2, 1, 1, 0, 0]
  else if lvl = 14 then [4, 3, 3, 3, 2, 1, 1, 0, 0]
  else if lvl = 15 then [4, 3, 3, 3, 2, 1, 1, 1, 0]
  else if lvl = 16 then [4, 3, 3, 3, 2, 1, 1, 1, 0]
  else if lvl = 17 then [4, 3, 3, 3, 2, 1, 1, 1, 1]
  else if lvl = 18 then [4, 3, 3, 3, 3, 1, 1, 1, 1]
  else if lvl = 19 then [4, 3, 3, 3, 3, 2, 1, 1, 1]
  else if lvl = 20 then [4, 3, 3, 3, 3, 2, 2, 1, 1]
  else [0, 0, 0, 0, 0, 0, 0, 0, 0]

/-! ### Character model and derivation engine (`app.py` lines 148-205) -/

/-- One entry of the player's `classes` list; `spellcasting` is `none` when
the dict lacks the key (the code then falls back to `CLASS_SPELLCASTING`). -/
structure ClassEntry where
  name : String
  level : Int
  spellcasting : Option String
deriving Repr, DecidableEq

/-- The spellcasting type `calculate_spellcaster_level` resolves for a class:
`cls.get('spellcasting', CLASS_SPELLCASTING.get(cls.get('name', ''), 'none'))`. -/
def resolvedCasting (c : ClassEntry) : String :=
  c.spellcasting.getD (CLASS_SPELLCASTING c.name)

/-- Embedding of `calculate_proficiency_bonus` (lines 148-159). -/
def calculate_proficiency_bonus (total_level : Int) : Int :=
  if 17 ≤ total_level then 6
  else if 13 ≤ total_level then 5
  else if 9 ≤ total_level then 4
  else if 5 ≤ total_level then 3
  else 2

/-- Embedding of `calculate_spellcaster_level` (lines 161-169): float accumulation modelled
over `Rat`, final `int(total)` as truncation toward zero. -/
def calculate_spellcaster_level (classes : List ClassEntry) : Int :=
  pyTruncRat (classes.foldl
    (fun acc c => acc + (c.level : Rat) * SPELLCASTER_MULTIPLIERS (resolvedCasting c)) 0)

/-- The slot-level display names (line 177). -/
def level_names : List String :=
  ["1st", "2nd", "3rd", "4th", "5th", "6th", "7th", "8th", "9th"]

/-- Embedding of `get_spell_slots` (lines 171-181): the result dict as an ordered
association list keeping only the non-zero counts. -/
def get_spell_slots (spellcaster_level : Int) : List (String × Nat) :=
  if spellcaster_level ≤ 0 then []
  else
    (level_names.zip (MULTICLASS_SPELL_SLOTS (min spellcaster_level 20))).filter
      (fun p => 0 < p.2)

/-- Embedding of `get_class_level` (lines 200-205): level of the first class whose name
matches case-insensitively, else 0. -/
def get_class_level (classes : List ClassEntry) (class_name : String) : Int :=
  match classes.find? (fun c => pyLower c.name = pyLower class_name) with
  | some c => c.level
  | none => 0

/-! ### Summon eligibility resolver (`app.py` lines 219-308) -/

/-- A monster-catalog record, restricted to the fields the core reads:
`name`, the free-text `Challenge` rating, the free-text `meta` type line,
the `Hit Points` text and the `Armor Class` text. -/
structure Monster where
  name : String
  Challenge : String
  meta : String
  hitPoints : String
  armorClass : String
deriving Repr, DecidableEq

/-- One entry of `SPELL_CREATURE_MAPPINGS`. -/
structure SpellMapping where
  cr_max : Rat
  types : List String
  specific : Option (List String)
deriving Repr, DecidableEq

/-- The `'specific'` creature list of the `'Find Familiar'` mapping
(line 227). -/
def findFamiliarNames : List String :=
  ["Bat", "Cat", "Crab", "Frog", "Hawk", "Lizard", "Octopus", "Owl",
   "Poisonous Snake", "Fish", "Rat", "Raven", "Sea Horse", "Spider", "Weasel"]

/-- The `'specific'` creature list of the `'Find Steed'` mapping (line 228). -/
def findSteedNames : List String :=
  ["Warhorse", "Pony", "Camel", "Elk", "Mastiff"]

/-- Embedding of `SPELL_CREATURE_MAPPINGS` (lines 220-229). -/
def SPELL_CREATURE_MAPPINGS (spell : String) : Option SpellMapping :=
  if spell = "Conjure Animals" then some ⟨2, ["beast"], none⟩
  else if spell = "Conjure Minor Elementals" then some ⟨2, ["elemental"], none⟩
  else if spell = "Conjure Woodland Beings" then some ⟨2, ["fey"], none⟩
  else if spell = "Conjure Celestial" then some ⟨4, ["celestial"], none⟩
  else if spell = "Conjure Elemental" then some ⟨5, ["elemental"], none⟩
  else if spell = "Conjure Fey" then some ⟨6, ["fey", "beast"], none⟩
  else if spell = "Find Familiar" then some ⟨0, ["beast"], some findFamiliarNames⟩
  else if spell = "Find Steed" then some ⟨2, ["beast"], some findSteedNames⟩
  else none

/-- The CR-parsing block of `get_summonable_creatures` (lines 290-299):
a string containing `/` is split on every `/` and read as a two-part
fraction, anything else takes its first whitespace token as a decimal;
every failure (bad shape, unparseable part, zero denominator) falls to the
bare `except` and yields 0. -/
def parse_challenge (cr_str : String) : Rat :=
  if cr_str.toList.contains '/' then
    match pySplitChar '/' cr_str with
    | [num, denom] =>
      match pyFloat num, pyFloat denom with
      | some a, some b => if b = 0 then 0 else a / b
      | _, _ => 0
    | _ => 0
  else
    match pySplitWs cr_str with
    | [] => 0
    | t :: _ => (pyFloat t).getD 0

/-- Lexicographic `≤` on character lists by Unicode code point — how Python
compares the strings handed to `sorted`. -/
def charLe : List Char → List Char → Bool
  | [], _ => true
  | _ :: _, [] => false
  | a :: as, b :: bs => if a = b then charLe as bs else decide (a.toNat < b.toNat)

/-- The code-point order on characters, as a named relation. -/
def charLt (a b : Char) : Prop :=
  a.toNat < b.toNat

/-- Boolean name order used to model Python's `sorted(..., key=name)`. -/
def nameLe (a b : Monster) : Bool :=
  charLe a.name.toList b.name.toList

/-- Embedding of `get_summonable_creatures` (lines 269-308), over an explicit catalog in
place of the monster file read. -/
def get_summonable_creatures (spell_name : String) (monsters : List Monster) :
    List Monster :=
  match SPELL_CREATURE_MAPPINGS spell_name with
  | none => []
  | some mapping =>
    let creatures :=
      match mapping.specific with
      | some specific =>
        let specific_names := specific.map pyLower
        monsters.filter (fun (m : Monster) =>
          specific_names.contains (pyLower m.name))
      | none =>
        let types := mapping.types.map pyLower
        monsters.filter (fun m =>
          decide (parse_challenge m.Challenge ≤ mapping.cr_max) &&
            types.any (fun t => strIn t (pyLower m.meta)))
    creatures.mergeSort nameLe

/-! ### Summoned-creature lifecycle (`app.py` lines 313-318, 354-404,
429-493) -/

/-- Helper for `parse_hit_points` (lines 313-318): leading digit run as `hp_max`,
first `NdM` substring (leftmost match of `(\d+d\d+)`) as `hit_dice`. -/
def findDice : List Char → Option (List Char)
  | [] => none
  | c :: rest =>
    if c.isDigit then
      let r1 := (c :: rest).takeWhile Char.isDigit
      match (c :: rest).drop r1.length with
      | 'd' :: after =>
        let r2 := after.takeWhile Char.isDigit
        if r2 ≠ [] then some (r1 ++ 'd' :: r2) else findDice rest
      | _ => findDice rest
    else findDice rest

/-- Embedding of `parse_hit_points` proper: `(hp_max, hit_dice)`. -/
def parse_hit_points (hit_points_str : String) : Int × String :=
  let lead := hit_points_str.toList.takeWhile Char.isDigit
  let hp_max : Int := if lead = [] then 0 else (digitsVal lead : Int)
  let hit_dice := ((findDice hit_points_str.toList).getD []).asString
  (hp_max, hit_dice)

/-- A summoned-creature instance as built at lines 379-402, restricted to the
fields the lifecycle operations read or write. `tempHp = none` models the
dict lacking the `temp_hp` key (every read is `.get('temp_hp', 0)`). -/
structure Inst where
  id : String
  name : String
  hitPoints : String
  hpMax : Int
  current_hp : Int
  hitDice : String
  armorClass : String
  mightySummoner : Bool
  extraHp : Int
  tempHp : Option Int
deriving Repr, DecidableEq

/-- The value every read of an instance's temp HP sees:
`.get('temp_hp', 0)`. -/
def tempVal (i : Inst) : Int :=
  i.tempHp.getD 0

/-- The session's `summoned` dict as an ordered association list. -/
abbrev SummonedMap := List (String × Inst)

/-- Python dict lookup `summoned[id]` / `id in summoned`. -/
def mapGet (m : SummonedMap) (k : String) : Option Inst :=
  (m.find? (fun p => p.1 = k)).map Prod.snd

/-- Python dict write `summoned[id] = v`: update in place when the key is
present, append otherwise. -/
def mapSet (m : SummonedMap) (k : String) (v : Inst) : SummonedMap :=
  if m.any (fun p => p.1 = k) then
    m.map (fun p => if p.1 = k then (k, v) else p)
  else m ++ [(k, v)]

/-- Embedding of `remove_summoned` (lines 429-435): `del` of the key when present. -/
def remove_summoned (creature_id : String) (m : SummonedMap) : SummonedMap :=
  m.filter (fun p => p.1 ≠ creature_id)

/-- The body of the `summon` POST handler (lines 354-404) for one request:
`hp_form` is the optional `Hit Points` form override, `fresh_ids i` stands
for the `uuid4()` drawn on loop iteration `i`. Ability-score and armor-class
form overrides only copy strings into the record and are collapsed to the
catalog values here. -/
def summonPost (creature : Monster) (hp_form : Option String)
    (quantity : Nat) (mighty_summoner : Bool) (fresh_ids : Nat → String)
    (summoned : SummonedMap) : SummonedMap :=
  let hp_str := hp_form.getD creature.hitPoints
  let parsed := parse_hit_points hp_str
  let hp_max := parsed.1
  let hit_dice := parsed.2
  let extra_hp : Int :=
    if mighty_summoner ∧ hit_dice ≠ "" then
      match pyInt ((pySplitChar 'd' hit_dice).headD "") with
      | some n => 2 * n
      | none => 0
    else 0
  (List.range quantity).foldl
    (fun sm i =>
      let creature_id := fresh_ids i
      let base_hp := hp_max + extra_hp
      mapSet sm creature_id
        { id := creature_id
          name := creature.name
          hitPoints := toString base_hp ++ " (" ++ hp_str ++ ")"
          hpMax := base_hp
          current_hp := base_hp
          hitDice := hit_dice
          armorClass := creature.armorClass
          mightySummoner := mighty_summoner
          extraHp := extra_hp
          tempHp := none })
    summoned

/-- Embedding of `update_summoned` (lines 437-454): `current_hp` and `temp_hp` are the
optional form fields. A malformed `current_hp` is ignored; a malformed
`temp_hp` sets the field to 0; a numeric `temp_hp` is stored as given. -/
def update_summoned (creature_id : String)
    (current_hp temp_hp : Option String) (m : SummonedMap) : SummonedMap :=
  match mapGet m creature_id with
  | none => m
  | some inst =>
    let inst1 :=
      match current_hp with
      | none => inst
      | some s =>
        match pyInt s with
        | some v => { inst with current_hp := v }
        | none => inst
    let inst2 :=
      match temp_hp with
      | none => inst1
      | some s =>
        match pyInt s with
        | some v => { inst1 with tempHp := some v }
        | none => { inst1 with tempHp := some 0 }
    mapSet m creature_id inst2

/-- Embedding of `update_temp_hp` (lines 481-493): a numeric `temp_hp` is stored as
`max(0, int(temp_hp))`; a malformed one sets the field to 0. -/
def update_temp_hp (creature_id : String) (temp_hp : Option String)
    (m : SummonedMap) : SummonedMap :=
  match mapGet m creature_id with
  | none => m
  | some inst =>
    match temp_hp with
    | none => m
    | some s =>
      match pyInt s with
      | some v => mapSet m creature_id { inst with tempHp := some (max 0 v) }
      | none => mapSet m creature_id { inst with tempHp := some 0 }

/-- The per-creature body of the `toggle_bear_spirit` loop (lines 472-476):
write the proposed temp HP only when it exceeds the current one. -/
def bearAuraUpdate (t : Int) (inst : Inst) : Inst :=
  if tempVal inst < t then { inst with tempHp := some t } else inst

/-- Embedding of `toggle_bear_spirit` (lines 456-479): returns the new
`bear_spirit_active` flag and the updated summoned map. When activating, the
proposal is `5 + druid_level` for every instance. -/
def toggle_bear_spirit (bear_spirit_active : Bool) (classes : List ClassEntry)
    (m : SummonedMap) : Bool × SummonedMap :=
  if bear_spirit_active then
    let temp_hp := 5 + get_class_level classes "Druid"
    (bear_spirit_active, m.map (fun p => (p.1, bearAuraUpdate temp_hp p.2)))
  else (bear_spirit_active, m)

/-- The temp-HP stacking rule the loop implements for one instance:
the stored value as a function of the current and proposed values. -/
def stackTempHp (current proposed : Int) : Int :=
  if current < proposed then proposed else current

/-! ### Claim-side definitions and concrete fixtures -/

/-- The multiplier table as the spec words it: full 1, half 0.5, third = 1/3
approximated to two decimal places (which the spec's design notes fix as
0.34), pact contributing 0 to the multiclass total, none 0. -/
def claimMultiplier (s : String) : Rat :=
  if s = "full" then 1
  else if s = "half" then 1 / 2
  else if s = "third" then 34 / 100
  else if s = "pact" then 0
  else 0

/-- The text after the first `/` of a string (what Python's
`s.split('/', 1)[1]` would return when `'/' in s`). -/
def afterFirstSlash (s : String) : String :=
  (joinSep '/' ((charSplitP (fun c => c = '/') s.toList).tail)).asString

/-- A concrete multiclass build: Druid 5 (full), Paladin 3 (half),
third-caster Fighter 5, Warlock 4 (pact). -/
def demoClasses : List ClassEntry :=
  [⟨"Druid", 5, none⟩, ⟨"Paladin", 3, none⟩, ⟨"Fighter", 5, some "third"⟩,
   ⟨"Warlock", 4, none⟩]

/-- A concrete catalog entry with the hit-points text of the spec's summoning
example. -/
def demoMonster : Monster :=
  ⟨"Test Beast", "1", "Medium beast, unaligned", "11 (2d8+2)", "12"⟩

/-- The instance `summonPost demoMonster` builds under Mighty Summoner, as a
function of the drawn identifier. -/
def demoInstOf (i : String) : Inst :=
  ⟨i, "Test Beast", "15 (11 (2d8+2))", 15, 15, "2d8", "12", true, 4, none⟩

/-- A one-instance summoned map whose creature has 3 temporary HP. -/
def c1Inst : Inst :=
  ⟨"c1", "Test Beast", "15 (11 (2d8+2))", 15, 15, "2d8", "12", true, 4, some 3⟩

/-- The map holding `c1Inst` under key `"c1"`. -/
def c1Map : SummonedMap := [("c1", c1Inst)]

/-- A freshly summoned one-instance map (no Mighty Summoner), key `"a"`. -/
def c2Map : SummonedMap :=
  summonPost demoMonster none 1 false (fun _ => "a") []

/-! ### Helper lemmas -/

/-- Looking a key up right after writing it returns the written instance
(the dict-write model is sound). -/
theorem mapGet_mapSet_self (m : SummonedMap) (k : String) (v : Inst) :
    mapGet (mapSet m k v) k = some v := by
  induction m with
  | nil => simp [mapGet, mapSet]
  | cons p m ih =>
    by_cases hp : p.1 = k
    · simp [mapGet, mapSet, hp]
    · by_cases han : m.any (fun q => decide (q.1 = k))
      · simp [mapGet, mapSet, hp, han] at ih ⊢
        exact ih
      · simp [mapGet, mapSet, hp, han] at ih ⊢
        exact ih

/-- The code's multiplier table agrees with the claim's multiplier table. -/
theorem multipliers_eq_claim (s : String) :
    SPELLCASTER_MULTIPLIERS s = claimMultiplier s := by
  unfold SPELLCASTER_MULTIPLIERS claimMultiplier
  split_ifs <;> rfl

/-- Every caster-type multiplier is nonnegative. -/
theorem multipliers_nonneg (s : String) : 0 ≤ SPELLCASTER_MULTIPLIERS s := by
  unfold SPELLCASTER_MULTIPLIERS
  split_ifs <;> norm_num

/-- The float accumulation loop of `calculate_spellcaster_level` computes the
sum of the per-class contributions. -/
theorem foldl_add_map (f : ClassEntry → Rat) :
    ∀ (l : List ClassEntry) (a : Rat),
      l.foldl (fun acc c => acc + f c) a = a + (l.map f).sum := by
  intro l
  induction l with
  | nil => intro a; simp
  | cons c l ih =>
    intro a
    simp only [List.foldl_cons, List.map_cons, List.sum_cons, ih]
    ring

/-- The function `Rat.floor` is the floor of Mathlib's `FloorRing` instance on `ℚ`. -/
theorem rat_floor_eq_intFloor (q : Rat) : q.floor = ⌊q⌋ :=
  (Rat.floor_def' q).trans Rat.floor_def.symm

/-- Evaluation rule for the `int()` truncation on a nonnegative rational. -/
theorem pyTruncRat_eval (q : Rat) (z : Int) (hz : 0 ≤ z) (h1 : (z : Rat) ≤ q)
    (h2 : q < z + 1) : pyTruncRat q = z := by
  have h0 : (0 : Rat) ≤ q := le_trans (by exact_mod_cast hz) h1
  unfold pyTruncRat
  rw [if_pos h0, rat_floor_eq_intFloor]
  exact Int.floor_eq_iff.mpr ⟨h1, h2⟩

/-- Characters with equal code points are equal. -/
theorem char_toNat_inj {a b : Char} (h : a.toNat = b.toNat) : a = b :=
  Char.ext (UInt32.toNat.inj h)

/-- Reflexivity of `charLe`. -/
theorem charLe_refl : ∀ u : List Char, charLe u u := by
  intro u
  induction u with
  | nil => simp [charLe]
  | cons a as ih => simpa [charLe] using ih

/-- Totality of `charLe`. -/
theorem charLe_total : ∀ u v : List Char, charLe u v || charLe v u := by
  intro u
  induction u with
  | nil => intro v; simp [charLe]
  | cons a as ih =>
    intro v
    cases v with
    | nil => simp [charLe]
    | cons b bs =>
      by_cases hab : a = b
      · subst hab
        simpa [charLe] using ih bs
      · have hba : ¬b = a := fun h => hab h.symm
        have : a.toNat < b.toNat ∨ b.toNat < a.toNat := by
          rcases Nat.lt_trichotomy a.toNat b.toNat with h | h | h
          · exact Or.inl h
          · exact absurd (char_toNat_inj h) hab
          · exact Or.inr h
        simp only [charLe, if_neg hab, if_neg hba, Bool.or_eq_true,
          decide_eq_true_eq]
        exact this

/-- Transitivity of `charLe`. -/
theorem charLe_trans : ∀ u v w : List Char,
    charLe u v → charLe v w → charLe u w := by
  intro u
  induction u with
  | nil => intro v w _ _; simp [charLe]
  | cons a as ih =>
    intro v w huv hvw
    cases v with
    | nil => simp [charLe] at huv
    | cons b bs =>
      cases w with
      | nil => simp [charLe] at hvw
      | cons c cs =>
        by_cases hab : a = b <;> by_cases hbc : b = c
        · subst hab; subst hbc
          simp only [charLe, if_pos rfl] at huv hvw ⊢
          exact ih bs cs huv hvw
        · subst hab
          simp only [charLe, if_pos rfl, if_neg hbc] at hvw ⊢
          exact hvw
        · subst hbc
          simp only [charLe, if_pos rfl, if_neg hab] at huv ⊢
          exact huv
        · simp only [charLe, if_neg hab, decide_eq_true_eq] at huv
          simp only [charLe, if_neg hbc, decide_eq_true_eq] at hvw
          have hlt : a.toNat < c.toNat := lt_trans huv hvw
          have hac : ¬a = c := by
            intro h
            rw [h] at hlt
            exact lt_irrefl _ hlt
          simp only [charLe, if_neg hac, decide_eq_true_eq]
          exact hlt

/-- The monster name order is transitive. -/
theorem nameLe_trans (a b c : Monster) (hab : nameLe a b) (hbc : nameLe b c) :
    nameLe a c :=
  charLe_trans _ _ _ hab hbc

/-- The monster name order is total. -/
theorem nameLe_total (a b : Monster) : nameLe a b || nameLe b a :=
  charLe_total _ _

/-- The order `charLe` holds exactly on equal lists or lexicographically smaller ones
(with respect to the code-point order on characters). -/
theorem charLe_iff : ∀ u v : List Char,
    charLe u v = true ↔ (u = v ∨ List.Lex charLt u v) := by
  intro u
  induction u with
  | nil =>
    intro v
    cases v with
    | nil => simp [charLe]
    | cons b bs => simp [charLe, List.Lex.nil]
  | cons a as ih =>
    intro v
    cases v with
    | nil =>
      constructor
      · intro h
        simp [charLe] at h
      · rintro (h | h)
        · exact absurd h (by simp)
        · cases h
    | cons b bs =>
      by_cases hab : a = b
      · subst hab
        have hhead : charLe (a :: as) (a :: bs) = charLe as bs := by
          simp [charLe]
        rw [hhead, ih bs]
        constructor
        · rintro (rfl | h)
          · exact Or.inl rfl
          · exact Or.inr (List.Lex.cons h)
        · rintro (h | h)
          · injection h with h1 h2
            exact Or.inl h2
          · cases h with
            | cons h => exact Or.inr h
            | rel h => exact absurd h (lt_irrefl a.toNat)
      · have hhead : charLe (a :: as) (b :: bs) = decide (a.toNat < b.toNat) := by
          simp [charLe, hab]
        rw [hhead]
        constructor
        · intro h
          exact Or.inr (List.Lex.rel (by simpa using h))
        · rintro (h | h)
          · injection h with h1 _
            exact absurd h1 hab
          · cases h with
            | cons h' => exact absurd rfl hab
            | rel h' => simpa using h'

/-! ### Claim theorems -/

/-- C9: the derived proficiency bonus is 2 for total levels 1-4, 3 for 5-8,
4 for 9-12, 5 for 13-16 and 6 for 17-20. -/
theorem proficiency_bonus_breakpoints (total_level : Int) :
    ((1 ≤ total_level ∧ total_level ≤ 4) →
      calculate_proficiency_bonus total_level = 2) ∧
    ((5 ≤ total_level ∧ total_level ≤ 8) →
      calculate_proficiency_bonus total_level = 3) ∧
    ((9 ≤ total_level ∧ total_level ≤ 12) →
      calculate_proficiency_bonus total_level = 4) ∧
    ((13 ≤ total_level ∧ total_level ≤ 16) →
      calculate_proficiency_bonus total_level = 5) ∧
    ((17 ≤ total_level ∧ total_level ≤ 20) →
      calculate_proficiency_bonus total_level = 6) := by
  unfold calculate_proficiency_bonus
  refine ⟨?_, ?_, ?_, ?_, ?_⟩ <;> intro h <;> split_ifs <;> omega

/-- Witness for C9 at total level 3. -/
theorem proficiency_bonus_breakpoints_witness :
    ((1 : Int) ≤ 3 ∧ (3 : Int) ≤ 4) ∧ calculate_proficiency_bonus 3 = 2 :=
  ⟨by decide, (proficiency_bonus_breakpoints 3).1 (by decide)⟩

/-- C8: spell-slot derivation — caster level ≤ 0 gives no slots, levels
above 20 use the level-20 row, and a single-class full caster at level 5 has
caster level 5 and slots 1st:4, 2nd:3, 3rd:2 with no zero-count entries. -/
theorem spell_slot_derivation (lvl : Int) :
    (lvl ≤ 0 → get_spell_slots lvl = []) ∧
    (20 < lvl → get_spell_slots lvl = get_spell_slots 20) ∧
    calculate_spellcaster_level [⟨"Wizard", 5, none⟩] = 5 ∧
    get_spell_slots 5 = [("1st", 4), ("2nd", 3), ("3rd", 2)] := by
  refine ⟨?_, ?_, ?_, by decide⟩
  · intro h
    simp [get_spell_slots, h]
  · intro h
    have h1 : ¬lvl ≤ 0 := by omega
    have h2 : min lvl 20 = 20 := min_eq_right (by omega)
    simp [get_spell_slots, h1, h2]
  · have hres : resolvedCasting ⟨"Wizard", 5, none⟩ = "full" := by decide
    unfold calculate_spellcaster_level
    simp only [List.foldl_cons, List.foldl_nil, hres]
    have hm : SPELLCASTER_MULTIPLIERS "full" = 1 := by
      unfold SPELLCASTER_MULTIPLIERS
      simp
    rw [hm]
    apply pyTruncRat_eval <;> norm_num

/-- Witness for C8 at caster levels -3 and 25. -/
theorem spell_slot_derivation_witness :
    get_spell_slots (-3) = [] ∧ get_spell_slots 25 = get_spell_slots 20 :=
  ⟨(spell_slot_derivation (-3)).1 (by decide),
   (spell_slot_derivation 25).2.1 (by decide)⟩

/-- C6: the temp-HP write rule is `max(current, proposed)` (3 vs 5 gives 5,
3 vs 2 stays 3), and toggling the Bear Spirit aura on proposes
`5 + druid level` to every summoned creature under that rule. -/
theorem temp_hp_stacking (current proposed : Int) :
    stackTempHp current proposed = max current proposed ∧
    stackTempHp 3 5 = 5 ∧ stackTempHp 3 2 = 3 ∧
    (∀ (t : Int) (inst : Inst),
      tempVal (bearAuraUpdate t inst) = stackTempHp (tempVal inst) t) ∧
    (∀ (classes : List ClassEntry) (m : SummonedMap),
      (toggle_bear_spirit true classes m).2 =
        m.map (fun p =>
          (p.1, bearAuraUpdate (5 + get_class_level classes "Druid") p.2))) := by
  refine ⟨?_, by decide, by decide, ?_, ?_⟩
  · unfold stackTempHp
    split_ifs <;> omega
  · intro t inst
    unfold bearAuraUpdate stackTempHp
    split_ifs <;> simp [tempVal]
  · intro classes m
    rfl

/-- C5: creating 3 instances from hit-points text `"11 (2d8+2)"` with Mighty
Summoner active parses hpMax 11 and hit dice `2d8`, grants 2 × 2 = 4 bonus HP,
and yields three instances with distinct identifiers, hpMax 15 and
current HP 15. -/
theorem mighty_summoner_instances :
    parse_hit_points "11 (2d8+2)" = (11, "2d8") ∧
    summonPost demoMonster none 3 true (fun i => "id" ++ toString i) [] =
      [("id0", demoInstOf "id0"), ("id1", demoInstOf "id1"),
       ("id2", demoInstOf "id2")] ∧
    (demoInstOf "id0").extraHp = 2 * 2 ∧
    (demoInstOf "id0").hpMax = 15 ∧
    (demoInstOf "id0").current_hp = 15 ∧
    ["id0", "id1", "id2"].Nodup := by
  refine ⟨by decide, by decide, by decide, by decide, by decide, by decide⟩

/-- C2 is violated: `update_summoned` stores a negative temp HP verbatim, so
a reachable post-state breaks the `tempHp ≥ 0` invariant (the sibling
`update_temp_hp` handler clamps with `max(0, ·)`, so the claim matches the
code's evident intent and this is a slip in `update_summoned`). -/
theorem negative_temp_hp_reachable :
    c2Map.map (fun p => tempVal p.2) = [0] ∧
    (mapGet (update_summoned "a" none (some "-5") c2Map) "a").map tempVal =
      some (-5) ∧
    ((-5 : Int) < 0) := by
  refine ⟨by decide, by decide, by decide⟩

/-- C1 as stated is false: a non-numeric `temp_hp` update does not retain the
prior temp HP of 3 but resets it to 0. -/
theorem temp_hp_reset_counterexample :
    tempVal c1Inst = 3 ∧
    (mapGet (update_temp_hp "c1" (some "not a number") c1Map) "c1").map tempVal =
      some 0 ∧
    (0 : Int) ≠ 3 := by
  refine ⟨by decide, by decide, by decide⟩

/-- C1 amended: a non-numeric `current_hp` update is a no-op retaining the
prior value, a non-numeric `temp_hp` update resets temp HP to 0, and a
numeric `temp_hp` update through `update_temp_hp` is floored at 0. -/
theorem malformed_update_behaviour (m : SummonedMap) (id s : String)
    (inst : Inst) (hmem : mapGet m id = some inst) :
    (pyInt s = none →
      mapGet (update_summoned id (some s) none m) id = some inst ∧
      mapGet (update_temp_hp id (some s) m) id =
        some { inst with tempHp := some 0 }) ∧
    (∀ v : Int, pyInt s = some v →
      mapGet (update_summoned id (some s) none m) id =
        some { inst with current_hp := v } ∧
      mapGet (update_temp_hp id (some s) m) id =
        some { inst with tempHp := some (max 0 v) }) := by
  constructor
  · intro hnone
    constructor
    · simp only [update_summoned, hmem, hnone]
      exact mapGet_mapSet_self m id inst
    · simp only [update_temp_hp, hmem, hnone]
      exact mapGet_mapSet_self m id _
  · intro v hv
    constructor
    · simp only [update_summoned, hmem, hv]
      exact mapGet_mapSet_self m id _
    · simp only [update_temp_hp, hmem, hv]
      exact mapGet_mapSet_self m id _

/-- Witness for the amended C1 on a concrete map: the non-numeric branch. -/
theorem malformed_update_behaviour_witness :
    mapGet c1Map "c1" = some c1Inst ∧ pyInt "not a number" = none ∧
    mapGet (update_temp_hp "c1" (some "not a number") c1Map) "c1" =
      some { c1Inst with tempHp := some 0 } :=
  ⟨by decide, by decide,
    ((malformed_update_behaviour c1Map "c1" "not a number" c1Inst
      (by decide)).1 (by decide)).2⟩

/-- C3: the derived spellcaster level is the floor of the sum of
`level × multiplier(casterType)` over the classes, with the claim's
multiplier table (full 1, half 0.5, third ≈ 0.34, pact 0, none 0). -/
theorem spellcaster_level_formula (classes : List ClassEntry)
    (hlev : ∀ c ∈ classes, 0 ≤ c.level) :
    calculate_spellcaster_level classes =
      ((classes.map (fun c =>
        (c.level : Rat) * claimMultiplier (resolvedCasting c))).sum).floor := by
  have hsum : 0 ≤ ((classes.map (fun c =>
      (c.level : Rat) * claimMultiplier (resolvedCasting c))).sum) := by
    apply List.sum_nonneg
    intro x hx
    obtain ⟨c, hc, rfl⟩ := List.mem_map.mp hx
    have h1 : (0 : Rat) ≤ (c.level : Rat) := by exact_mod_cast hlev c hc
    have h2 := multipliers_nonneg (resolvedCasting c)
    rw [multipliers_eq_claim] at h2
    exact mul_nonneg h1 h2
  unfold calculate_spellcaster_level
  rw [foldl_add_map, zero_add]
  simp only [multipliers_eq_claim]
  unfold pyTruncRat
  rw [if_pos hsum]

/-- Witness for C3 on a concrete Druid 5 / Paladin 3 / third-caster
Fighter 5 / Warlock 4 build. -/
theorem spellcaster_level_formula_witness :
    (∀ c ∈ demoClasses, 0 ≤ c.level) ∧
    calculate_spellcaster_level demoClasses =
      ((demoClasses.map (fun c =>
        (c.level : Rat) * claimMultiplier (resolvedCasting c))).sum).floor :=
  ⟨by decide, spellcaster_level_formula demoClasses (by decide)⟩

/-- C4: for a mapping without an explicit name list the resolver returns
exactly the catalog entries whose parsed CR is at most `cr_max` and whose
lowered meta text contains an allowed type keyword; CR text parses as a plain
decimal or an `n/d` fraction and defaults to 0 (including on `""`); in
particular every Conjure Animals result has parsed CR ≤ 2 and `beast` in its
meta text. -/
theorem conjure_filter_semantics :
    (∀ (catalog : List Monster) (spell : String) (mp : SpellMapping),
      SPELL_CREATURE_MAPPINGS spell = some mp → mp.specific = none →
      ∀ mon : Monster,
        mon ∈ get_summonable_creatures spell catalog ↔
          mon ∈ catalog ∧ parse_challenge mon.Challenge ≤ mp.cr_max ∧
            (mp.types.map pyLower).any
              (fun t => strIn t (pyLower mon.meta)) = true) ∧
    parse_challenge "2" = 2 ∧ parse_challenge "1/4" = 1 / 4 ∧
    parse_challenge "" = 0 ∧
    (∀ (catalog : List Monster) (mon : Monster),
      mon ∈ get_summonable_creatures "Conjure Animals" catalog →
        parse_challenge mon.Challenge ≤ 2 ∧
          strIn "beast" (pyLower mon.meta) = true) := by
  have hmain : ∀ (catalog : List Monster) (spell : String) (mp : SpellMapping),
      SPELL_CREATURE_MAPPINGS spell = some mp → mp.specific = none →
      ∀ mon : Monster,
        mon ∈ get_summonable_creatures spell catalog ↔
          mon ∈ catalog ∧ parse_challenge mon.Challenge ≤ mp.cr_max ∧
            (mp.types.map pyLower).any
              (fun t => strIn t (pyLower mon.meta)) = true := by
    intro catalog spell mp hmp hspec mon
    obtain ⟨cr_max, types, specific⟩ := mp
    simp only at hspec
    subst hspec
    unfold get_summonable_creatures
    rw [hmp]
    simp [List.mem_filter]
  refine ⟨hmain, by decide, ?_, by decide, ?_⟩
  · have hc : ("1/4".toList.contains '/') = true := by decide
    have hs : pySplitChar '/' "1/4" = ["1", "4"] := by decide
    have h1 : pyFloat "1" = some 1 := by decide
    have h4 : pyFloat "4" = some 4 := by decide
    simp [parse_challenge, hc, hs, h1, h4]
  · intro catalog mon hmem
    have h := (hmain catalog "Conjure Animals" ⟨2, ["beast"], none⟩
      (by decide) rfl mon).mp hmem
    have hb : pyLower "beast" = "beast" := by decide
    refine ⟨h.2.1, ?_⟩
    have h2 := h.2.2
    simpa [hb] using h2

/-- Witness for C4: a CR-1 beast is accepted by the Conjure Animals filter. -/
theorem conjure_filter_semantics_witness :
    SPELL_CREATURE_MAPPINGS "Conjure Animals" = some ⟨2, ["beast"], none⟩ ∧
    demoMonster ∈ get_summonable_creatures "Conjure Animals" [demoMonster] := by
  refine ⟨by decide, ?_⟩
  exact (conjure_filter_semantics.1 [demoMonster] "Conjure Animals"
    ⟨2, ["beast"], none⟩ (by decide) rfl demoMonster).mpr
    ⟨by decide, by decide, by decide⟩

/-- C7: Find Familiar resolution returns exactly the catalog entries whose
lowered name is one of the mapping's 15 listed names, sorted by name in the
code-point-lexicographic order, for every catalog. -/
theorem find_familiar_resolution (catalog : List Monster) :
    (get_summonable_creatures "Find Familiar" catalog).Pairwise
      (fun a b => a.name = b.name ∨
        List.Lex charLt a.name.toList b.name.toList) ∧
    (∀ mon : Monster,
      mon ∈ get_summonable_creatures "Find Familiar" catalog ↔
        mon ∈ catalog ∧
          (findFamiliarNames.map pyLower).contains (pyLower mon.name) = true) ∧
    findFamiliarNames.length = 15 := by
  have hmp : SPELL_CREATURE_MAPPINGS "Find Familiar" =
      some ⟨0, ["beast"], some findFamiliarNames⟩ := by decide
  have hresolve : get_summonable_creatures "Find Familiar" catalog =
      (catalog.filter (fun m =>
        (findFamiliarNames.map pyLower).contains (pyLower m.name))).mergeSort
          nameLe := by
    unfold get_summonable_creatures
    rw [hmp]
  refine ⟨?_, ?_, by decide⟩
  · rw [hresolve]
    have hpair := List.sorted_mergeSort
      (fun a b c hab hbc => nameLe_trans a b c hab hbc)
      (fun a b => nameLe_total a b)
      (catalog.filter (fun m =>
        (findFamiliarNames.map pyLower).contains (pyLower m.name)))
    refine hpair.imp ?_
    intro a b h
    have h' := (charLe_iff a.name.toList b.name.toList).mp h
    rcases h' with h' | h'
    · exact Or.inl (String.ext h')
    · exact Or.inr h'
  · intro mon
    rw [hresolve]
    simp [List.mem_filter]

/-- Witness for C7 at a concrete catalog: an owl is retained (its name is
listed), the demo beast is rejected, and the name list has 15 entries. -/
theorem find_familiar_resolution_witness :
    findFamiliarNames.length = 15 ∧
    "Owl" ∈ (get_summonable_creatures "Find Familiar"
      [demoMonster, ⟨"Owl", "0", "Tiny beast, unaligned", "1 (1d4-1)", "11"⟩]).map
        Monster.name ∧
    "Test Beast" ∉ (get_summonable_creatures "Find Familiar"
      [demoMonster, ⟨"Owl", "0", "Tiny beast, unaligned", "1 (1d4-1)", "11"⟩]).map
        Monster.name := by
  have h := find_familiar_resolution
    [demoMonster, ⟨"Owl", "0", "Tiny beast, unaligned", "1 (1d4-1)", "11"⟩]
  refine ⟨h.2.2, ?_, ?_⟩
  · have hmem := (h.2.1 ⟨"Owl", "0", "Tiny beast, unaligned", "1 (1d4-1)", "11"⟩).mpr
      ⟨by decide, by decide⟩
    exact List.mem_map.mpr ⟨_, hmem, rfl⟩
  · intro hmem
    obtain ⟨mon, hmon, hname⟩ := List.mem_map.mp hmem
    have hlist := ((h.2.1 mon).mp hmon).2
    rw [hname] at hlist
    revert hlist
    decide

/-- C10 as stated is false: `"2 (1/2 XP)"` has first whitespace token `"2"`,
a plain decimal, yet the `'/'` in the trailing text routes parsing to the
fraction branch, which fails and yields 0, not 2. -/
theorem cr_trailing_text_counterexample :
    pySplitWs "2 (1/2 XP)" = ["2", "(1/2", "XP)"] ∧
    pyFloat "2" = some 2 ∧
    parse_challenge "2 (1/2 XP)" = 0 ∧ (0 : Rat) ≠ 2 := by
  refine ⟨by decide, by decide, by decide, by decide⟩

/-- C10 amended: trailing text after a whole number is accepted only when the
whole challenge string contains no `'/'`; when the string contains `'/'` and
the text after the first `'/'` is not a valid float, parsing yields 0, which
passes every mapping's `cr_max` filter. -/
theorem cr_parsing_amended (s t : String) (rest : List String) (q : Rat) :
    (s.toList.contains '/' = false → pySplitWs s = t :: rest →
      pyFloat t = some q → parse_challenge s = q) ∧
    (s.toList.contains '/' = true → pyFloat (afterFirstSlash s) = none →
      parse_challenge s = 0) ∧
    parse_challenge "1/4 (50 XP)" = 0 ∧
    (∀ (spell : String) (mp : SpellMapping),
      SPELL_CREATURE_MAPPINGS spell = some mp →
      parse_challenge "1/4 (50 XP)" ≤ mp.cr_max) := by
  refine ⟨?_, ?_, by decide, ?_⟩
  · intro hs hsplit hq
    unfold parse_challenge
    rw [if_neg (show ¬s.toList.contains '/' = true by rw [hs]; simp), hsplit]
    show (pyFloat t).getD 0 = q
    rw [hq]
    rfl
  · intro hs hnone
    unfold parse_challenge
    rw [if_pos hs]
    unfold pySplitChar
    rcases hsplit : charSplitP (fun c => c = '/') s.toList
      with _ | ⟨u, _ | ⟨v, _ | ⟨w, tail⟩⟩⟩
    · simp
    · simp
    · have hafter : afterFirstSlash s = List.asString v := by
        unfold afterFirstSlash
        rw [show charSplitP (fun c => c = '/') s.toList = [u, v] from hsplit]
        rfl
      rw [hafter] at hnone
      simp only [List.map_cons, List.map_nil]
      cases hfu : pyFloat (List.asString u) <;> simp [hfu, hnone]
    · simp only [List.map_cons]
  · intro spell mp hmp
    have h0 : parse_challenge "1/4 (50 XP)" = 0 := by decide
    rw [h0]
    unfold SPELL_CREATURE_MAPPINGS at hmp
    split_ifs at hmp <;>
      first
        | (injection hmp with h
           subst h
           norm_num)
        | simp at hmp

/-- Witness for the amended C10 on the two concrete shapes. -/
theorem cr_parsing_amended_witness :
    ("2 (450 XP)".toList.contains '/' = false) ∧
    pySplitWs "2 (450 XP)" = ["2", "(450", "XP)"] ∧
    pyFloat "2" = some 2 ∧
    parse_challenge "2 (450 XP)" = 2 ∧
    ("1/4 (50 XP)".toList.contains '/' = true) ∧
    pyFloat (afterFirstSlash "1/4 (50 XP)") = none ∧
    parse_challenge "1/4 (50 XP)" = 0 := by
  refine ⟨by decide, by decide, by decide, ?_, by decide, by decide, ?_⟩
  · exact (cr_parsing_amended "2 (450 XP)" "2" ["(450", "XP)"] 2).1
      (by decide) (by decide) (by decide)
  · exact ((cr_parsing_amended "1/4 (50 XP)" "" [] 0).2.1)
      (by decide) (by decide)

end App
